import Mathlib

/-!
Shallow embedding of the AI trading-simulation engine of
`backend/app/services/trading/engine.py`, the lifecycle API endpoints of
`backend/app/api/v1/trading.py`, and the worker gate of
`backend/app/workers/trading_tasks.py`.

Modelling conventions:
* `Decimal` arithmetic is modelled with exact rationals (`ℚ`).
* Log messages (Chinese text with emoji in the source) are modelled as
  tags (`LogMsg`); the wall-clock timestamp on each entry is dropped.
* Kline datetime parsing and the comparison against the simulation window
  (`sim_start <= k_dt <= sim_end` together with parse success) is
  precomputed into the boolean field `Kline.inWindow`.
* `db.refresh(simulation)` inside the loop is modelled as overwriting the
  `status` field with an externally observed value (`obs : ℕ → Status`),
  since `status` (and the terminal `summary`) are the only fields written
  concurrently by the API endpoints.
* The LLM call plus JSON extraction of `_make_trading_decision` is
  modelled by an `OracleOutcome` per day: either `failure` (transport
  error / unparsable response, the `except` path) or a parsed reply with
  an action string and quantity.  Token/cost accounting fields are not
  modelled (no claim mentions them), nor are the free-text provenance
  fields of a `Trade` (`llm_reasoning`, `market_data`, `tokens_used`).
* `sharpe_ratio` is computed with Python floats (`statistics`, `252 **
  0.5`) in the source and is left out of the model; no claim refers to it.
-/

namespace FinanceRag

/-- Simulation lifecycle status, `trading_simulations.status`. -/
inductive Status where
  | pending
  | running
  | paused
  | stopped
  | completed
  | failed
deriving DecidableEq, Repr

/-- Tags for the log messages appended by `TradingEngine._add_log`.
The actual strings (Chinese text with emoji and interpolated numbers)
are abstracted to constructors; numeric payloads that a claim inspects
are kept. -/
inductive LogMsg where
  | startBanner
  | symbolInfo
  | initialFunds
  | fetchingData
  | insufficientData
  | fetchedData (n : ℕ)
  | fallbackRecent (n : ℕ)
  | backtestStart (n : ℕ)
  | separator
  | dayHeader (idx : ℕ)
  | priceInfo
  | portfolioInfo
  | aiAnalyzing
  | aiDecision
  | decisionReason
  | holdDay
  | dashSeparator
  | buySuccess
  | postTradeState
  | sellSuccess
  | realizedPnlLog
  | metricsCalc
  | simComplete
  | totalTradesLog
  | totalPnlLog
  | roiLog
  | stoppedByUser
  | pausedByUser
  | simFailed (msg : String)
deriving DecidableEq, Repr

/-- One entry of `execution_logs.logs` (timestamp abstracted away). -/
structure LogEntry where
  level : String
  msg : LogMsg
deriving DecidableEq, Repr

/-- The terminal `summary` text: either the string generated by
`_generate_summary` (its formatting is abstracted to a tag) or the fixed
message written by the stop endpoint. -/
inductive Summary where
  | generated
  | manualStop
deriving DecidableEq, Repr

/-- A UTC datetime, as constructed by `datetime(y, m, d, hh, mm, ss,
tzinfo=timezone.utc)`. -/
structure DateTimeUtc where
  year : ℕ
  month : ℕ
  day : ℕ
  hour : ℕ
  minute : ℕ
  second : ℕ
deriving DecidableEq, Repr

/-- The `TradingSimulation` record (fields relevant to the claims). -/
structure Sim where
  symbol : String
  market : String
  agent_name : String
  llm_model : String
  initial_balance : ℚ
  current_balance : ℚ
  currency : String
  start_date : DateTimeUtc
  end_date : DateTimeUtc
  status : Status
  current_shares : ℚ
  average_cost : Option ℚ
  total_trades : ℕ
  winning_trades : ℕ
  losing_trades : ℕ
  total_profit_loss : ℚ
  max_drawdown : Option ℚ
  summary : Option Summary
  error_message : Option String
  logs : List LogEntry
deriving DecidableEq, Repr

/-- `Trade.action`. -/
inductive Action where
  | buy
  | sell
deriving DecidableEq, Repr

/-- The `Trade` record (ledger-relevant fields; decision-provenance
fields are not modelled). -/
structure Trade where
  action : Action
  quantity : ℚ
  price : ℚ
  total_amount : ℚ
  commission : ℚ
  shares_before : ℚ
  shares_after : ℚ
  cash_before : ℚ
  cash_after : ℚ
  realized_pnl : Option ℚ
deriving DecidableEq, Repr

/-- A validated decision as returned by `_make_trading_decision`
(`action` is already restricted to buy/sell; `hold` is `none`). -/
structure TradeDecision where
  action : Action
  quantity : ℚ
  confidence : ℚ
deriving DecidableEq, Repr

/-- One daily OHLCV point; only the close price is used for trading,
and the date comparison against the window is precomputed into
`inWindow`. -/
structure Kline where
  close : ℚ
  inWindow : Bool
deriving DecidableEq, Repr

/-- What one day's oracle interaction yields before validation: the
`except` path of `_make_trading_decision` (transport error or JSON parse
failure), or a parsed reply with a (lower-cased) action string and a
share quantity. -/
inductive OracleOutcome where
  | failure
  | reply (action : String) (quantity : ℚ) (confidence : ℚ)
deriving DecidableEq, Repr

/-- `self.commission_rate = Decimal("0.001")`. -/
def commission_rate : ℚ := 1 / 1000

/-- `TradingEngine._add_log`: append one entry to the execution log. -/
def addLog (s : Sim) (level : String) (m : LogMsg) : Sim :=
  { s with logs := s.logs ++ [⟨level, m⟩] }

/-- Python's `simulation.average_cost or price`: `None` and `Decimal("0")`
are both falsy, so either falls back to `price`. -/
def avgOr (avg : Option ℚ) (price : ℚ) : ℚ :=
  match avg with
  | none => price
  | some a => if a = 0 then price else a

/-- `TradingEngine.get_initial_balance`. -/
def get_initial_balance (market : String) : ℚ × String :=
  if market = "cn" then (50000, "CNY") else (50000, "USD")

/-- `model_mapping.get(agent_name, "deepseek")` in `create_simulation`. -/
def mapAgentModel (agent_name : String) : String :=
  if agent_name = "deepseek" ∨ agent_name = "minimax" ∨
      agent_name = "claude" ∨ agent_name = "openai" then
    agent_name
  else
    "deepseek"

/-- `TradingEngine.create_simulation` (the `config` dict is stored
opaquely and never read by the modelled code, so it is not a
parameter).  Aggregate fields take the ORM column defaults of
`TradingSimulation`. -/
def create_simulation (symbol market agent_name : String) : Sim :=
  let ib := get_initial_balance market
  { symbol := symbol
    market := market
    agent_name := agent_name
    llm_model := mapAgentModel agent_name
    initial_balance := ib.1
    current_balance := ib.1
    currency := ib.2
    start_date := ⟨2026, 2, 1, 0, 0, 0⟩
    end_date := ⟨2026, 4, 30, 23, 59, 59⟩
    status := .pending
    current_shares := 0
    average_cost := none
    total_trades := 0
    winning_trades := 0
    losing_trades := 0
    total_profit_loss := 0
    max_drawdown := none
    summary := none
    error_message := none
    logs := [] }

/-- Validation tail of `_make_trading_decision`: an action outside
buy/sell/hold becomes hold; hold (and any failure) yields `none`. -/
def makeTradingDecision (o : OracleOutcome) : Option TradeDecision :=
  match o with
  | .failure => none
  | .reply action quantity confidence =>
    let action :=
      if action = "buy" ∨ action = "sell" ∨ action = "hold" then action
      else "hold"
    if action = "hold" then none
    else some ⟨if action = "buy" then .buy else .sell, quantity, confidence⟩

/-- The buy clamp of `_execute_trade`: when the desired `cost +
commission` exceeds the available cash, the quantity is replaced by
`current_balance * 0.99 / (price * (1 + commission_rate))`. -/
def buyClampedQty (s : Sim) (quantity price : ℚ) : ℚ :=
  if quantity * price + quantity * price * commission_rate >
      s.current_balance then
    (s.current_balance * (99 / 100)) / (price * (1 + commission_rate))
  else quantity

/-- The sell clamp of `_execute_trade`: `if quantity >
simulation.current_shares: quantity = simulation.current_shares`. -/
def sellClampedQty (s : Sim) (quantity : ℚ) : ℚ :=
  if quantity > s.current_shares then s.current_shares else quantity

/-- `TradingEngine._execute_trade`: apply a validated decision to the
ledger; returns the updated simulation and the recorded trade, if any. -/
def execute_trade (s : Sim) (d : TradeDecision) (price : ℚ) :
    Sim × Option Trade :=
  let quantity := d.quantity
  if quantity ≤ 0 then (s, none)
  else
    match d.action with
    | .buy =>
      -- The source computes cost/commission/total_cost, clamps the
      -- quantity when `total_cost > current_balance`, and then
      -- recomputes cost/commission/total_cost from the clamped
      -- quantity with the same formulas; clamping first and computing
      -- the three values once is the same function.
      let quantity := buyClampedQty s quantity price
      let cost := quantity * price
      let commission := cost * commission_rate
      let total_cost := cost + commission
      if quantity ≤ 0 then (s, none)
      else
        let shares_before := s.current_shares
        let cash_before := s.current_balance
        let new_shares := s.current_shares + quantity
        let new_balance := s.current_balance - total_cost
        let new_avg :=
          if shares_before > 0 then
            some ((shares_before * avgOr s.average_cost price + cost) /
              new_shares)
          else some price
        let s := { s with
          current_shares := new_shares
          current_balance := new_balance
          average_cost := new_avg }
        let s := addLog s "success" .buySuccess
        let s := addLog s "info" .postTradeState
        let t : Trade :=
          { action := .buy
            quantity := quantity
            price := price
            total_amount := total_cost
            commission := commission
            shares_before := shares_before
            shares_after := new_shares
            cash_before := cash_before
            cash_after := new_balance
            realized_pnl := none }
        ({ s with total_trades := s.total_trades + 1 }, some t)
    | .sell =>
      let quantity := sellClampedQty s quantity
      if quantity ≤ 0 then (s, none)
      else
        let proceeds := quantity * price
        let commission := proceeds * commission_rate
        let net_proceeds := proceeds - commission
        let shares_before := s.current_shares
        let cash_before := s.current_balance
        let cost_basis := quantity * avgOr s.average_cost price
        let realized_pnl := net_proceeds - cost_basis
        let new_shares := s.current_shares - quantity
        let new_balance := s.current_balance + net_proceeds
        let s := { s with
          current_shares := new_shares
          current_balance := new_balance
          winning_trades :=
            if realized_pnl > 0 then s.winning_trades + 1
            else s.winning_trades
          losing_trades :=
            if realized_pnl < 0 then s.losing_trades + 1
            else s.losing_trades }
        let s := addLog s "success" .sellSuccess
        let s := addLog s "info" .realizedPnlLog
        let s := addLog s "info" .postTradeState
        let t : Trade :=
          { action := .sell
            quantity := quantity
            price := price
            total_amount := net_proceeds
            commission := commission
            shares_before := shares_before
            shares_after := new_shares
            cash_before := cash_before
            cash_after := new_balance
            realized_pnl := some realized_pnl }
        ({ s with total_trades := s.total_trades + 1 }, some t)

/-- `"Insufficient historical data for simulation"` (the `ValueError`
raised when fewer than 20 klines are fetched, caught by the outer
`except` which copies it into `error_message`). -/
def insufficientDataMsg : String := "Insufficient historical data for simulation"

/-- Kline selection of `run_simulation` (lines 118-145): filter to the
simulation window; if fewer than 10 points qualify, fall back to the
most recent at-most-60 fetched points (`klines[-60:] if len(klines) >=
60 else klines`).  Returns the selection and whether the fallback was
taken. -/
def selectSimKlines (klines : List Kline) : List Kline × Bool :=
  let sim_klines := klines.filter (fun k => k.inWindow)
  if sim_klines.length < 10 then
    (klines.drop (klines.length - 60), true)
  else (sim_klines, false)

/-- The non-break part of one loop iteration of `run_simulation`
(lines 162-206): the portfolio logging, the oracle call and, when a
decision is returned, the executor.  Returns the updated simulation and
the day's trade, if any. -/
def dayBody (oracle : ℕ → OracleOutcome) (k : Kline) (idx : ℕ)
    (s : Sim) : Sim × Option Trade :=
  let s := addLog s "info" (.dayHeader idx)
  let s := addLog s "info" .priceInfo
  let s := addLog s "info" .portfolioInfo
  let s := addLog s "info" .aiAnalyzing
  match makeTradingDecision (oracle idx) with
  | some d =>
    let s := addLog s "info" .aiDecision
    let s := addLog s "info" .decisionReason
    let r := execute_trade s d k.close
    (addLog r.1 "info" .dashSeparator, r.2)
  | none =>
    let s := addLog s "info" .holdDay
    (addLog s "info" .dashSeparator, none)

/-- The per-day loop of `run_simulation` (lines 152-206).  Each day it
re-reads the status from the store (`db.refresh`, modelled by `obs`),
breaks on `stopped`/`paused`, otherwise runs `dayBody`.  Returns the
simulation and the accumulated trades (the rows flushed to the `trades`
table, in order). -/
def runLoop (oracle : ℕ → OracleOutcome) (obs : ℕ → Status) :
    List Kline → ℕ → Sim → List Trade → Sim × List Trade
  | [], _, s, ts => (s, ts)
  | k :: rest, idx, s, ts =>
    let s := { s with status := obs idx }
    if s.status = .stopped then (addLog s "warning" .stoppedByUser, ts)
    else if s.status = .paused then (addLog s "warning" .pausedByUser, ts)
    else
      runLoop oracle obs rest (idx + 1) (dayBody oracle k idx s).1
        (ts ++ (dayBody oracle k idx s).2.toList)

/-- The drawdown fold of `_calculate_metrics`: running peak, drawdown
`(peak - value) / peak` when `peak > 0`, report the maximum. -/
def maxDrawdownAux : List ℚ → ℚ → ℚ → ℚ
  | [], _, max_dd => max_dd
  | v :: rest, peak, max_dd =>
    let peak := if v > peak then v else peak
    let dd := if peak > 0 then (peak - v) / peak else 0
    maxDrawdownAux rest peak (if dd > max_dd then dd else max_dd)

/-- `max_drawdown` over the per-trade portfolio values (`peak` starts at
the first value). -/
def maxDrawdown (values : List ℚ) : ℚ :=
  maxDrawdownAux values (values.headD 0) 0

/-- A placeholder trade for `List.getLastD`; `_calculate_metrics` only
reads the last trade when the list is nonempty. -/
def defaultTrade : Trade :=
  { action := .buy, quantity := 0, price := 0, total_amount := 0,
    commission := 0, shares_before := 0, shares_after := 0,
    cash_before := 0, cash_after := 0, realized_pnl := none }

/-- `TradingEngine._calculate_metrics` (the Sharpe-ratio block uses
Python floats and is not modelled; no claim refers to it).  `trades` is
the simulation's trade list ordered by `trade_date`, i.e. execution
order. -/
def calculate_metrics (s : Sim) (trades : List Trade) : Sim :=
  match trades with
  | [] => s
  | _ :: _ =>
    let realized_pnl :=
      (trades.map (fun t => t.realized_pnl.getD 0)).sum
    let unrealized_pnl :=
      if s.current_shares > 0 then
        let last_price := (trades.getLastD defaultTrade).price
        s.current_shares * last_price -
          s.current_shares * avgOr s.average_cost last_price
      else 0
    let s := { s with total_profit_loss := realized_pnl + unrealized_pnl }
    let portfolio_values :=
      trades.map (fun t => t.cash_after + t.shares_after * t.price)
    { s with max_drawdown := some (maxDrawdown portfolio_values) }

/-- The start-of-attempt mutation of `run_simulation` (lines 94-99):
set status to `running` and write the four opening log lines. -/
def startRunSim (s : Sim) : Sim :=
  addLog (addLog (addLog (addLog { s with status := .running }
    "info" .startBanner) "info" .symbolInfo) "info" .initialFunds)
    "info" .fetchingData

/-- The `except`-path of `run_simulation` for the
`len(klines) < 20` `ValueError` (lines 112-114 and 221-226): log the
error, set `failed` and copy the message into `error_message`. -/
def insufficientResult (s : Sim) : Sim × List Trade :=
  let s := addLog s "error" .insufficientData
  let s := addLog s "error" (.simFailed insufficientDataMsg)
  ({ s with status := .failed,
            error_message := some insufficientDataMsg }, [])

/-- The simulation state entering the day loop (lines 116-149): the
start-of-attempt logs, the fetched-data log, the window selection with
its optional fallback log, and the backtest-start banner. -/
def preLoopSim (s : Sim) (klines : List Kline) : Sim :=
  let s := startRunSim s
  let s := addLog s "info" (.fetchedData klines.length)
  let sel := selectSimKlines klines
  let s :=
    if sel.2 then addLog s "info" (.fallbackRecent sel.1.length) else s
  let s := addLog s "info" (.backtestStart sel.1.length)
  addLog s "info" .separator

/-- The post-loop tail of `run_simulation` (lines 208-219): metrics,
closing log lines, then status `completed` with the generated summary —
unconditionally, whether or not the loop broke early. -/
def finishRun (s : Sim) (trades : List Trade) : Sim × List Trade :=
  let s := addLog s "info" .metricsCalc
  let s := calculate_metrics s trades
  let s := addLog s "success" .simComplete
  let s := addLog s "info" .totalTradesLog
  let s := addLog s "info" .totalPnlLog
  let s := addLog s "info" .roiLog
  ({ s with status := .completed, summary := some .generated }, trades)

/-- `TradingEngine.run_simulation`: one execution attempt.  Returns the
final simulation record together with the trades written during the
attempt.  Faithful to the source: after the loop `finishRun` runs the
metrics and sets the status to `completed` unconditionally — there is no
check of whether the loop broke on an observed `stopped`/`paused`. -/
def run_simulation (s : Sim) (klines : List Kline)
    (oracle : ℕ → OracleOutcome) (obs : ℕ → Status) : Sim × List Trade :=
  if klines.length < 20 then insufficientResult (startRunSim s)
  else
    finishRun
      (runLoop oracle obs (selectSimKlines klines).1 0
        (preLoopSim s klines) []).1
      (runLoop oracle obs (selectSimKlines klines).1 0
        (preLoopSim s klines) []).2

/-- `POST /simulations/id/start` (`start_simulation`, trading.py lines
99-131): reject unless `pending`; on success dispatch the Celery task
(`run_trading_simulation.delay`) and return the simulation — the
endpoint itself writes no field.  The `Bool` records whether a task was
dispatched. -/
def startRejectMsg : String :=
  "Cannot start simulation: only pending simulations can be started"

def pauseRejectMsg : String :=
  "Cannot pause simulation: only running simulations can be paused"

def resumeRejectMsg : String :=
  "Cannot resume simulation: only paused simulations can be resumed"

def stopRejectMsg : String := "Cannot stop simulation"

def start_endpoint (s : Sim) : Except String (Sim × Bool) :=
  if s.status ≠ .pending then .error startRejectMsg
  else .ok (s, true)

/-- `POST /simulations/id/pause`: reject unless `running`; else set
`paused`. -/
def pause_endpoint (s : Sim) : Except String Sim :=
  if s.status ≠ .running then .error pauseRejectMsg
  else .ok { s with status := .paused }

/-- `POST /simulations/id/resume`: reject unless `paused`; else set
`pending` and dispatch a new task. -/
def resume_endpoint (s : Sim) : Except String (Sim × Bool) :=
  if s.status ≠ .paused then .error resumeRejectMsg
  else .ok ({ s with status := .pending }, true)

/-- `POST /simulations/id/stop`: allowed from `pending`, `running` or
`paused`; sets `stopped` with the fixed summary
"Simulation was manually stopped by user". -/
def stop_endpoint (s : Sim) : Except String Sim :=
  if s.status = .pending ∨ s.status = .running ∨ s.status = .paused then
    .ok { s with status := .stopped, summary := some .manualStop }
  else .error stopRejectMsg

/-- The worker task `run_trading_simulation` (trading_tasks.py lines
87-108): only a simulation observed in `pending` is executed; any other
status returns without running the engine. -/
def run_trading_task (s : Sim) (klines : List Kline)
    (oracle : ℕ → OracleOutcome) (obs : ℕ → Status) : Sim × List Trade :=
  if s.status = .pending then run_simulation s klines oracle obs
  else (s, [])

/-! ### Concrete fixtures used by witnesses and counterexamples -/

/-- A freshly created US-market simulation: `pending`, cash 50000 USD.
Spelled out as a record so that concrete runs evaluate;
`create_simulation_us` below proves it equal to
`create_simulation "AAPL" "us" "deepseek"`. -/
def simUS : Sim :=
  { symbol := "AAPL", market := "us", agent_name := "deepseek",
    llm_model := "deepseek", initial_balance := 50000,
    current_balance := 50000, currency := "USD",
    start_date := ⟨2026, 2, 1, 0, 0, 0⟩,
    end_date := ⟨2026, 4, 30, 23, 59, 59⟩,
    status := .pending, current_shares := 0, average_cost := none,
    total_trades := 0, winning_trades := 0, losing_trades := 0,
    total_profit_loss := 0, max_drawdown := none, summary := none,
    error_message := none, logs := [] }

/-- The same simulation observed in `running` state. -/
def simRunning : Sim := { simUS with status := .running }

/-- Twenty in-window klines at close price 100. -/
def ks20 : List Kline := List.replicate 20 ⟨100, true⟩

/-- Twenty-five fetched klines, none inside the simulation window. -/
def ksOutside : List Kline := List.replicate 25 ⟨100, false⟩

/-- Four klines: fewer than the 20 required points. -/
def ksShort : List Kline := List.replicate 4 ⟨100, true⟩

/-- Day 1 of the §8 example: a `buy 100` decision at close price 100
against a fresh 50000-cash simulation. -/
def exampleDay1 : Sim × Option Trade :=
  execute_trade simUS ⟨.buy, 100, 1 / 2⟩ 100

/-- Day 3 of the §8 example: a `sell 50` decision at close price 95
(days 2 and 4 are holds and record no trade). -/
def exampleDay3 : Sim × Option Trade :=
  execute_trade exampleDay1.1 ⟨.sell, 50, 1 / 2⟩ 95

/-- The metrics pass over the two recorded trades of the example. -/
def exampleFinal : Sim :=
  calculate_metrics exampleDay3.1 (exampleDay1.2.toList ++ exampleDay3.2.toList)



/-! ### Specification predicates for the executor claims -/

/-- What C3 asserts of a buy execution, phrased against
`execute_trade`: the clamp replaces the quantity exactly when the
desired total exceeds cash; a non-positive clamped quantity records no
trade and leaves the state unchanged; otherwise the recorded trade
carries `total_amount = cost + commission ≤ cash_before`, the cash
decreases by `total_amount`, the shares increase by the (clamped)
quantity, and `average_cost` becomes the quantity-weighted blend of the
prior cost basis and the new purchase (the price itself when no shares
were held). -/
def BuySpec (s : Sim) (q p c : ℚ) : Prop :=
  (buyClampedQty s q p ≤ 0 → execute_trade s ⟨.buy, q, c⟩ p = (s, none)) ∧
  (0 < buyClampedQty s q p → ∃ t,
    (execute_trade s ⟨.buy, q, c⟩ p).2 = some t ∧
    t.action = .buy ∧
    t.quantity = buyClampedQty s q p ∧
    t.price = p ∧
    t.commission = buyClampedQty s q p * p * commission_rate ∧
    t.total_amount =
      buyClampedQty s q p * p + buyClampedQty s q p * p * commission_rate ∧
    t.total_amount ≤ s.current_balance ∧
    t.cash_before = s.current_balance ∧
    t.shares_before = s.current_shares ∧
    t.cash_after = s.current_balance - t.total_amount ∧
    t.shares_after = s.current_shares + buyClampedQty s q p ∧
    (execute_trade s ⟨.buy, q, c⟩ p).1.current_balance =
      s.current_balance - t.total_amount ∧
    (execute_trade s ⟨.buy, q, c⟩ p).1.current_shares =
      s.current_shares + buyClampedQty s q p ∧
    (s.current_shares = 0 →
      (execute_trade s ⟨.buy, q, c⟩ p).1.average_cost = some p) ∧
    (∀ a, s.average_cost = some a → a ≠ 0 → 0 < s.current_shares →
      (execute_trade s ⟨.buy, q, c⟩ p).1.average_cost =
        some ((s.current_shares * a + buyClampedQty s q p * p) /
          (s.current_shares + buyClampedQty s q p))))

/-- What C4 asserts of a sell execution, phrased against
`execute_trade`: the quantity is clamped to
`min(quantity, current_shares)`; a non-positive clamped quantity records
no trade and leaves the state unchanged; otherwise the recorded trade
carries `total_amount = proceeds − commission`, `realized_pnl =
net_proceeds − quantity × average_cost`, the cash increases by
`total_amount`, the shares decrease by the clamped quantity,
`average_cost` is unchanged, and exactly one of
`winning_trades`/`losing_trades` is incremented by the sign of
`realized_pnl` (neither on zero). -/
def SellSpec (s : Sim) (q p c a : ℚ) : Prop :=
  sellClampedQty s q = min q s.current_shares ∧
  (sellClampedQty s q ≤ 0 → execute_trade s ⟨.sell, q, c⟩ p = (s, none)) ∧
  (0 < sellClampedQty s q → ∃ t,
    (execute_trade s ⟨.sell, q, c⟩ p).2 = some t ∧
    t.action = .sell ∧
    t.quantity = sellClampedQty s q ∧
    t.price = p ∧
    t.commission = sellClampedQty s q * p * commission_rate ∧
    t.total_amount =
      sellClampedQty s q * p - sellClampedQty s q * p * commission_rate ∧
    t.realized_pnl = some (sellClampedQty s q * p -
      sellClampedQty s q * p * commission_rate - sellClampedQty s q * a) ∧
    t.cash_before = s.current_balance ∧
    t.shares_before = s.current_shares ∧
    t.cash_after = s.current_balance + t.total_amount ∧
    t.shares_after = s.current_shares - sellClampedQty s q ∧
    (execute_trade s ⟨.sell, q, c⟩ p).1.current_balance =
      s.current_balance + t.total_amount ∧
    (execute_trade s ⟨.sell, q, c⟩ p).1.current_shares =
      s.current_shares - sellClampedQty s q ∧
    (execute_trade s ⟨.sell, q, c⟩ p).1.average_cost = s.average_cost ∧
    (execute_trade s ⟨.sell, q, c⟩ p).1.total_trades = s.total_trades + 1 ∧
    (0 < sellClampedQty s q * p - sellClampedQty s q * p * commission_rate -
        sellClampedQty s q * a →
      (execute_trade s ⟨.sell, q, c⟩ p).1.winning_trades =
        s.winning_trades + 1 ∧
      (execute_trade s ⟨.sell, q, c⟩ p).1.losing_trades = s.losing_trades) ∧
    (sellClampedQty s q * p - sellClampedQty s q * p * commission_rate -
        sellClampedQty s q * a < 0 →
      (execute_trade s ⟨.sell, q, c⟩ p).1.losing_trades =
        s.losing_trades + 1 ∧
      (execute_trade s ⟨.sell, q, c⟩ p).1.winning_trades =
        s.winning_trades) ∧
    (sellClampedQty s q * p - sellClampedQty s q * p * commission_rate -
        sellClampedQty s q * a = 0 →
      (execute_trade s ⟨.sell, q, c⟩ p).1.winning_trades =
        s.winning_trades ∧
      (execute_trade s ⟨.sell, q, c⟩ p).1.losing_trades = s.losing_trades))

/-- The per-trade ledger invariants of C5 / spec §3. -/
def TradeInvariant (t : Trade) : Prop :=
  (t.action = .buy → t.shares_after = t.shares_before + t.quantity ∧
    t.cash_after = t.cash_before - t.total_amount) ∧
  (t.action = .sell → t.shares_after = t.shares_before - t.quantity ∧
    t.cash_after = t.cash_before + t.total_amount) ∧
  0 ≤ t.shares_after ∧ 0 ≤ t.cash_after

/-- Fold the executor over an arbitrary sequence of (decision, price)
pairs, collecting the recorded trades — "for every sequence of oracle
decisions and prices" in C5. -/
def runDecisions (s : Sim) : List (TradeDecision × ℚ) → Sim × List Trade
  | [] => (s, [])
  | step :: rest =>
    ((runDecisions (execute_trade s step.1 step.2).1 rest).1,
      (execute_trade s step.1 step.2).2.toList ++
        (runDecisions (execute_trade s step.1 step.2).1 rest).2)

/-- A short concrete decision/price sequence: an affordable buy, then
an oversized sell. -/
def demoSteps : List (TradeDecision × ℚ) :=
  [(⟨.buy, 100, 1 / 2⟩, 10), (⟨.sell, 200, 1 / 2⟩, 12)]

/-! ### Basic lemmas -/

theorem create_simulation_us :
    create_simulation "AAPL" "us" "deepseek" = simUS := by
  simp [create_simulation, get_initial_balance, mapAgentModel,
    String.reduceEq, simUS]

/-! ### Projection lemmas for `addLog` -/

@[simp] theorem addLog_status (s : Sim) (l : String) (m : LogMsg) :
    (addLog s l m).status = s.status := rfl

@[simp] theorem addLog_current_shares (s : Sim) (l : String) (m : LogMsg) :
    (addLog s l m).current_shares = s.current_shares := rfl

@[simp] theorem addLog_current_balance (s : Sim) (l : String) (m : LogMsg) :
    (addLog s l m).current_balance = s.current_balance := rfl

@[simp] theorem addLog_total_trades (s : Sim) (l : String) (m : LogMsg) :
    (addLog s l m).total_trades = s.total_trades := rfl

@[simp] theorem addLog_winning_trades (s : Sim) (l : String) (m : LogMsg) :
    (addLog s l m).winning_trades = s.winning_trades := rfl

@[simp] theorem addLog_losing_trades (s : Sim) (l : String) (m : LogMsg) :
    (addLog s l m).losing_trades = s.losing_trades := rfl

@[simp] theorem addLog_total_profit_loss (s : Sim) (l : String) (m : LogMsg) :
    (addLog s l m).total_profit_loss = s.total_profit_loss := rfl

@[simp] theorem addLog_average_cost (s : Sim) (l : String) (m : LogMsg) :
    (addLog s l m).average_cost = s.average_cost := rfl

@[simp] theorem addLog_logs (s : Sim) (l : String) (m : LogMsg) :
    (addLog s l m).logs = s.logs ++ [⟨l, m⟩] := rfl


/-! ### Executor lemmas -/

theorem buy_total_le_balance (s : Sim) (q p : ℚ)
    (hq : 0 < q) (hc : 0 ≤ s.current_balance) :
    buyClampedQty s q p * p + buyClampedQty s q p * p * commission_rate ≤
      s.current_balance := by
  unfold buyClampedQty
  split_ifs with h
  · have hp : 0 < p := by
      by_contra hp
      push_neg at hp
      have h1 : q * p ≤ 0 := mul_nonpos_of_nonneg_of_nonpos hq.le hp
      have h2 : q * p * commission_rate ≤ 0 := by
        unfold commission_rate
        nlinarith
      linarith
    have hpn : p * (1 + commission_rate) ≠ 0 := by
      unfold commission_rate at *
      positivity
    have hcancel :
        (s.current_balance * (99 / 100)) / (p * (1 + commission_rate)) * p +
          (s.current_balance * (99 / 100)) / (p * (1 + commission_rate)) * p *
            commission_rate = s.current_balance * (99 / 100) := by
      field_simp
      ring
    rw [hcancel]
    nlinarith
  · push_neg at h
    linarith

theorem sellClampedQty_eq_min (s : Sim) (q : ℚ) :
    sellClampedQty s q = min q s.current_shares := by
  unfold sellClampedQty
  split_ifs with h
  · exact (min_eq_right h.le).symm
  · push_neg at h
    exact (min_eq_left h).symm

/-- One executor step preserves non-negativity of shares and cash and
any trade it records satisfies the ledger invariants. -/
theorem execute_trade_step (s : Sim) (d : TradeDecision) (p : ℚ)
    (hs : 0 ≤ s.current_shares) (hc : 0 ≤ s.current_balance) (hp : 0 ≤ p) :
    0 ≤ (execute_trade s d p).1.current_shares ∧
    0 ≤ (execute_trade s d p).1.current_balance ∧
    ∀ t, (execute_trade s d p).2 = some t → TradeInvariant t := by
  obtain ⟨act, q, c⟩ := d
  by_cases h0 : q ≤ 0
  · unfold execute_trade
    rw [if_pos h0]
    exact ⟨hs, hc, fun t ht => Option.noConfusion ht⟩
  cases act with
  | buy =>
    by_cases hcl : buyClampedQty s q p ≤ 0
    · unfold execute_trade
      simp only [h0, if_false]
      rw [if_pos hcl]
      exact ⟨hs, hc, fun t ht => Option.noConfusion ht⟩
    · have hq : 0 < q := lt_of_not_le h0
      have hpos : 0 < buyClampedQty s q p := lt_of_not_le hcl
      have htot := buy_total_le_balance s q p hq hc
      unfold execute_trade
      simp only [h0, if_false]
      rw [if_neg hcl]
      refine ⟨add_nonneg hs hpos.le, ?_, ?_⟩
      · show 0 ≤ s.current_balance - (buyClampedQty s q p * p +
          buyClampedQty s q p * p * commission_rate)
        linarith
      · intro t ht
        cases ht
        refine ⟨fun _ => ⟨rfl, rfl⟩, fun hab => by simp at hab,
          add_nonneg hs hpos.le, ?_⟩
        show 0 ≤ s.current_balance - (buyClampedQty s q p * p +
          buyClampedQty s q p * p * commission_rate)
        linarith
  | sell =>
    by_cases hcl : sellClampedQty s q ≤ 0
    · unfold execute_trade
      simp only [h0, if_false]
      rw [if_pos hcl]
      exact ⟨hs, hc, fun t ht => Option.noConfusion ht⟩
    · have hpos : 0 < sellClampedQty s q := lt_of_not_le hcl
      have hle : sellClampedQty s q ≤ s.current_shares := by
        unfold sellClampedQty
        split_ifs with h
        · exact le_rfl
        · push_neg at h
          exact h
      have hqp : 0 ≤ sellClampedQty s q * p := mul_nonneg hpos.le hp
      have hr : commission_rate = 1 / 1000 := rfl
      unfold execute_trade
      simp only [h0, if_false]
      rw [if_neg hcl]
      refine ⟨?_, ?_, ?_⟩
      · show 0 ≤ s.current_shares - sellClampedQty s q
        linarith
      · show 0 ≤ s.current_balance + (sellClampedQty s q * p -
          sellClampedQty s q * p * commission_rate)
        rw [hr]
        linarith
      · intro t ht
        cases ht
        refine ⟨fun hab => by simp at hab, fun _ => ⟨rfl, rfl⟩, ?_, ?_⟩
        · show 0 ≤ s.current_shares - sellClampedQty s q
          linarith
        · show 0 ≤ s.current_balance + (sellClampedQty s q * p -
            sellClampedQty s q * p * commission_rate)
          rw [hr]
          linarith

/-! ### C3 -/

/-- C3: for every buy decision with positive quantity, against a state
with non-negative cash, `execute_trade` behaves as `BuySpec` describes:
the clamp fires exactly when `cost + commission` exceeds cash, a
non-positive clamped quantity is a skip, and otherwise the trade's
`total_amount ≤ cash_before`, cash drops by `total_amount`, shares grow
by the quantity, and the new `average_cost` is the quantity-weighted
blend (the price itself when `shares_before = 0`). -/
theorem C3_buy_execution (s : Sim) (q p c : ℚ)
    (hq : 0 < q) (hc : 0 ≤ s.current_balance) : BuySpec s q p c := by
  have h0 : ¬ (q ≤ 0) := not_le.mpr hq
  have htot := buy_total_le_balance s q p hq hc
  constructor
  · intro hle
    unfold execute_trade
    simp only [h0, if_false]
    rw [if_pos hle]
  · intro hpos
    have hnle : ¬ (buyClampedQty s q p ≤ 0) := not_le.mpr hpos
    unfold execute_trade
    simp only [h0, if_false]
    rw [if_neg hnle]
    refine ⟨_, rfl, rfl, rfl, rfl, rfl, rfl, htot, rfl, rfl, rfl, rfl,
      rfl, rfl, ?_, ?_⟩
    · intro hzero
      simp [addLog, hzero]
    · intro a ha ha0 hgt
      simp [addLog, avgOr, ha, ha0, if_pos hgt]

/-- Witness for C3 at a concrete affordable buy: 100 shares at price
100 from a fresh 50000-cash simulation. -/
theorem C3_buy_execution_witness :
    (0 : ℚ) < 100 ∧ (0 : ℚ) ≤ simUS.current_balance ∧
    BuySpec simUS 100 100 (1 / 2) :=
  ⟨by norm_num, by norm_num [simUS],
    C3_buy_execution simUS 100 100 (1 / 2) (by norm_num)
      (by norm_num [simUS])⟩

/-! ### C4 -/

/-- C4: for every sell decision against a state whose cost basis
`average_cost` is a non-zero value `a`, `execute_trade` behaves as
`SellSpec` describes: the quantity is clamped to
`min(quantity, current_shares)`, a non-positive clamped quantity is a
skip, and otherwise `total_amount = proceeds − commission` is added to
cash, shares shrink by the quantity, `realized_pnl = net_proceeds −
quantity × average_cost`, `average_cost` is unchanged, and exactly one
of `winning_trades`/`losing_trades` is incremented by the sign of
`realized_pnl`, neither when it is zero. -/
theorem C4_sell_execution (s : Sim) (q p c a : ℚ)
    (ha : s.average_cost = some a) (ha0 : a ≠ 0) : SellSpec s q p c a := by
  refine ⟨sellClampedQty_eq_min s q, ?_, ?_⟩
  · intro hle
    by_cases hq0 : q ≤ 0
    · unfold execute_trade
      rw [if_pos hq0]
    · unfold execute_trade
      simp only [hq0, if_false]
      rw [if_pos hle]
  · intro hpos
    have havg : avgOr s.average_cost p = a := by simp [avgOr, ha, ha0]
    have hq0 : ¬ (q ≤ 0) := by
      intro hq0
      have hle : sellClampedQty s q ≤ 0 := by
        unfold sellClampedQty
        split_ifs with h
        · linarith
        · exact hq0
      linarith
    have hnle : ¬ (sellClampedQty s q ≤ 0) := not_le.mpr hpos
    unfold execute_trade
    simp only [hq0, if_false]
    rw [if_neg hnle, havg]
    refine ⟨_, rfl, rfl, rfl, rfl, rfl, rfl, rfl, rfl, rfl, rfl, rfl, rfl,
      rfl, rfl, rfl, ?_, ?_, ?_⟩ <;> intro h <;>
      constructor <;> dsimp only [addLog] <;> split_ifs <;>
      first
        | rfl
        | (exfalso; linarith)

/-- Witness for C4 at a concrete sell: 50 shares at price 95 from the
post-buy state of the §8 example, whose cost basis is 100. -/
theorem C4_sell_execution_witness :
    exampleDay1.1.average_cost = some 100 ∧ (100 : ℚ) ≠ 0 ∧
    SellSpec exampleDay1.1 50 95 (1 / 2) 100 :=
  ⟨by norm_num [exampleDay1, execute_trade, buyClampedQty, simUS,
      commission_rate, avgOr, addLog],
    by norm_num,
    C4_sell_execution exampleDay1.1 50 95 (1 / 2) 100
      (by norm_num [exampleDay1, execute_trade, buyClampedQty, simUS,
        commission_rate, avgOr, addLog]) (by norm_num)⟩

/-! ### C5 -/

/-- C5: over any sequence of decisions and non-negative prices, from
any state with non-negative shares and cash, every trade the executor
records satisfies `shares_after = shares_before ± quantity` and
`cash_after = cash_before ∓ total_amount` (by action), and shares and
cash remain non-negative after every trade and at the end of the
sequence. -/
theorem C5_ledger_invariants (steps : List (TradeDecision × ℚ)) (s : Sim)
    (hs : 0 ≤ s.current_shares) (hc : 0 ≤ s.current_balance)
    (hp : ∀ x ∈ steps, 0 ≤ x.2) :
    0 ≤ (runDecisions s steps).1.current_shares ∧
    0 ≤ (runDecisions s steps).1.current_balance ∧
    ∀ t ∈ (runDecisions s steps).2, TradeInvariant t := by
  induction steps generalizing s with
  | nil =>
    exact ⟨hs, hc, fun t ht => absurd ht (by simp [runDecisions])⟩
  | cons step rest ih =>
    obtain ⟨h1, h2, h3⟩ :=
      execute_trade_step s step.1 step.2 hs hc (hp step (by simp))
    have hrest := ih (execute_trade s step.1 step.2).1 h1 h2
      (fun x hx => hp x (by simp [hx]))
    unfold runDecisions
    refine ⟨hrest.1, hrest.2.1, ?_⟩
    intro t ht
    rw [List.mem_append] at ht
    rcases ht with h | h
    · cases hopt : (execute_trade s step.1 step.2).2 with
      | none =>
        rw [hopt] at h
        simp at h
      | some tr =>
        rw [hopt] at h
        simp at h
        subst h
        exact h3 t hopt
    · exact hrest.2.2 t h

/-- Witness for C5 on a concrete two-step sequence from a fresh
simulation. -/
theorem C5_ledger_invariants_witness :
    (0 : ℚ) ≤ simUS.current_shares ∧ (0 : ℚ) ≤ simUS.current_balance ∧
    (∀ x ∈ demoSteps, (0 : ℚ) ≤ x.2) ∧
    (0 ≤ (runDecisions simUS demoSteps).1.current_shares ∧
      0 ≤ (runDecisions simUS demoSteps).1.current_balance ∧
      ∀ t ∈ (runDecisions simUS demoSteps).2, TradeInvariant t) := by
  refine ⟨by norm_num [simUS], by norm_num [simUS], ?_, ?_⟩
  · intro x hx
    fin_cases hx <;> norm_num
  · exact C5_ledger_invariants demoSteps simUS (by norm_num [simUS])
      (by norm_num [simUS])
      (by intro x hx; fin_cases hx <;> norm_num)

/-! ### C1 -/

/-- C1: the claim says that when the per-day status re-read observes
`stopped` the loop breaks with no further trades and the final status of
the attempt equals the observed status.  The break does happen (no trade
is recorded), but `run_simulation` then unconditionally runs the metrics
and sets the status to `completed`: on a 20-day run whose re-read
observes `stopped` from the first day, the attempt ends `completed`, not
`stopped`. -/
theorem C1_stop_break_overwritten_to_completed :
    (run_simulation simUS ks20 (fun _ => .failure)
        (fun _ => .stopped)).2 = [] ∧
    (run_simulation simUS ks20 (fun _ => .failure)
        (fun _ => .stopped)).1.status = Status.completed ∧
    Status.completed ≠ Status.stopped := by
  refine ⟨rfl, rfl, by decide⟩

/-! ### C2 -/

/-- C2, counterexample: the claim (following §8) states that after the
day-1 buy the cash is 50000 − 100×100×1.001 = 39 900; the executor
actually leaves 50000 − 10010 = 39 990 (the spec's subtraction is off by
90), so the claimed figure is false. -/
theorem C2_counterexample :
    exampleDay1.1.current_balance = 39990 ∧ (39990 : ℚ) ≠ 39900 := by
  constructor
  · norm_num [exampleDay1, execute_trade, buyClampedQty, simUS,
      commission_rate, avgOr, addLog]
  · norm_num

/-- C2, amended: on the §8 scenario the executor/metrics path (the
claim's cited code) produces: after day 1, shares = 100 and cash =
50000 − 100×100×1.001 = 39 990; after the day-3 sell of 50 at 95, cash =
39 990 + 50×95×0.999 = 44 735.25, shares = 50, realized_pnl =
50×95×0.999 − 50×100 = −254.75, losing_trades = 1; and the final
total_profit_loss is this realized loss plus the unrealized P&L on the
remaining 50 shares valued at the *last traded* price 95 (the day-4 hold
records no trade, so 110 is never used): −254.75 + (50×95 − 50×100) =
−504.75. -/
theorem C2_example_amended :
    exampleDay1.1.current_shares = 100 ∧
    exampleDay1.1.current_balance = 50000 - 100 * 100 * (1001 / 1000) ∧
    exampleDay1.1.average_cost = some 100 ∧
    exampleDay3.1.current_balance =
      (50000 - 100 * 100 * (1001 / 1000)) + 50 * 95 * (999 / 1000) ∧
    exampleDay3.1.current_shares = 50 ∧
    (exampleDay3.2.map (fun t => t.realized_pnl)) =
      some (some (50 * 95 * (999 / 1000) - 50 * 100)) ∧
    exampleDay3.1.losing_trades = 1 ∧
    exampleDay3.1.winning_trades = 0 ∧
    exampleFinal.total_profit_loss =
      (50 * 95 * (999 / 1000) - 50 * 100) + (50 * 95 - 50 * 100) := by
  refine ⟨?_, ?_, ?_, ?_, ?_, ?_, ?_, ?_, ?_⟩ <;>
    norm_num [exampleFinal, exampleDay3, exampleDay1, execute_trade,
      buyClampedQty, sellClampedQty, calculate_metrics, simUS,
      commission_rate, avgOr, addLog, maxDrawdown, maxDrawdownAux]

/-! ### C10 -/

/-- C10: every simulation produced by `create_simulation` starts in
`pending` with zero shares, `current_balance = initial_balance = 50000`
exactly, currency "CNY" for the "cn" market and "USD" otherwise, and the
hard-coded backtest window 2026-02-01 .. 2026-04-30 23:59:59 UTC,
independent of all caller input. -/
theorem C10_create_simulation_defaults (symbol market agent_name : String) :
    (create_simulation symbol market agent_name).status = Status.pending ∧
    (create_simulation symbol market agent_name).current_shares = 0 ∧
    (create_simulation symbol market agent_name).current_balance = 50000 ∧
    (create_simulation symbol market agent_name).initial_balance = 50000 ∧
    (create_simulation symbol market agent_name).currency =
      (if market = "cn" then "CNY" else "USD") ∧
    (create_simulation symbol market agent_name).start_date =
      ⟨2026, 2, 1, 0, 0, 0⟩ ∧
    (create_simulation symbol market agent_name).end_date =
      ⟨2026, 4, 30, 23, 59, 59⟩ := by
  by_cases h : market = "cn" <;>
    simp [create_simulation, get_initial_balance, h]


/-! ### Loop lemmas -/

theorem dayBody_failure (k : Kline) (idx : ℕ) (s : Sim) :
    dayBody (fun _ => .failure) k idx s =
      (addLog (addLog (addLog (addLog (addLog (addLog
        s "info" (.dayHeader idx)) "info" .priceInfo) "info" .portfolioInfo)
        "info" .aiAnalyzing) "info" .holdDay) "info" .dashSeparator,
        none) := rfl

/-- Unfolding one loop iteration when the re-read status is `running`:
no break, the day body runs and the loop continues. -/
theorem runLoop_cons_running (oracle : ℕ → OracleOutcome) (k : Kline)
    (rest : List Kline) (idx : ℕ) (s : Sim) (ts : List Trade) :
    runLoop oracle (fun _ => .running) (k :: rest) idx s ts =
      runLoop oracle (fun _ => .running) rest (idx + 1)
        (dayBody oracle k idx { s with status := .running }).1
        (ts ++ (dayBody oracle k idx
          { s with status := .running }).2.toList) := by
  conv_lhs => rw [runLoop]
  dsimp only
  rw [if_neg (by decide : ¬ (Status.running = Status.stopped)),
    if_neg (by decide : ¬ (Status.running = Status.paused))]

/-- When every oracle call fails and the observed status stays
`running`, the loop records no trade and leaves every ledger field
unchanged. -/
theorem runLoop_all_failure (ks : List Kline) (idx : ℕ) (s : Sim)
    (ts : List Trade) (hs : s.status = .running) :
    ∃ s', runLoop (fun _ => .failure) (fun _ => .running) ks idx s ts =
        (s', ts) ∧
      s'.status = .running ∧ s'.total_trades = s.total_trades ∧
      s'.total_profit_loss = s.total_profit_loss ∧
      s'.current_shares = s.current_shares ∧
      s'.current_balance = s.current_balance := by
  induction ks generalizing idx s ts with
  | nil => exact ⟨s, rfl, hs, rfl, rfl, rfl, rfl⟩
  | cons k rest ih =>
    rw [runLoop_cons_running, dayBody_failure]
    dsimp only [Option.toList]
    rw [List.append_nil]
    have hresult := ih (idx + 1)
      (addLog (addLog (addLog (addLog (addLog (addLog
        { s with status := .running } "info" (.dayHeader idx))
        "info" .priceInfo) "info" .portfolioInfo) "info" .aiAnalyzing)
        "info" .holdDay) "info" .dashSeparator) ts rfl
    simp only [addLog_status, addLog_total_trades, addLog_total_profit_loss,
      addLog_current_shares, addLog_current_balance] at hresult
    exact hresult

theorem preLoopSim_status (s : Sim) (klines : List Kline) :
    (preLoopSim s klines).status = .running := by
  by_cases h : (selectSimKlines klines).2 <;>
    simp [preLoopSim, startRunSim, h]

theorem preLoopSim_total_trades (s : Sim) (klines : List Kline) :
    (preLoopSim s klines).total_trades = s.total_trades := by
  by_cases h : (selectSimKlines klines).2 <;>
    simp [preLoopSim, startRunSim, h]

theorem preLoopSim_total_profit_loss (s : Sim) (klines : List Kline) :
    (preLoopSim s klines).total_profit_loss = s.total_profit_loss := by
  by_cases h : (selectSimKlines klines).2 <;>
    simp [preLoopSim, startRunSim, h]

/-- `finishRun` with no trades: metrics skip (the `if not trades:
return` branch), so only the status, summary and logs change. -/
theorem finishRun_empty (s : Sim) :
    (finishRun s []).1.status = .completed ∧
    (finishRun s []).1.total_trades = s.total_trades ∧
    (finishRun s []).1.total_profit_loss = s.total_profit_loss ∧
    (finishRun s []).2 = [] := by
  refine ⟨?_, ?_, ?_, ?_⟩ <;> simp [finishRun, calculate_metrics, addLog]

/-! ### C6 -/

/-- C6: if every oracle call fails, every day is handled as a hold —
the failure is never fatal — and an attempt started from a simulation
whose counters are fresh (`total_trades = 0`, `total_profit_loss = 0`,
as `create_simulation` produces) still ends `completed` with
`total_trades = 0`, `total_profit_loss = 0`, and no trade rows, provided
the fetched history has at least the 20 required points. -/
theorem C6_oracle_failure_isolation (s0 : Sim) (klines : List Kline)
    (h20 : 20 ≤ klines.length) (htr : s0.total_trades = 0)
    (hpl : s0.total_profit_loss = 0) :
    (run_simulation s0 klines (fun _ => .failure)
        (fun _ => .running)).1.status = .completed ∧
    (run_simulation s0 klines (fun _ => .failure)
        (fun _ => .running)).1.total_trades = 0 ∧
    (run_simulation s0 klines (fun _ => .failure)
        (fun _ => .running)).1.total_profit_loss = 0 ∧
    (run_simulation s0 klines (fun _ => .failure)
        (fun _ => .running)).2 = [] := by
  have h : ¬ (klines.length < 20) := by omega
  obtain ⟨s', heq, hst, htr', hpl', _, _⟩ :=
    runLoop_all_failure (selectSimKlines klines).1 0 (preLoopSim s0 klines)
      [] (preLoopSim_status s0 klines)
  have hrun : run_simulation s0 klines (fun _ => .failure)
      (fun _ => .running) = finishRun s' [] := by
    simp only [run_simulation]
    rw [if_neg h, heq]
  rw [hrun]
  refine ⟨(finishRun_empty s').1, ?_, ?_, (finishRun_empty s').2.2.2⟩
  · exact ((finishRun_empty s').2.1).trans
      (htr'.trans ((preLoopSim_total_trades s0 klines).trans htr))
  · exact ((finishRun_empty s').2.2.1).trans
      (hpl'.trans ((preLoopSim_total_profit_loss s0 klines).trans hpl))

/-- Witness for C6: a fresh simulation over 20 fetched points with an
always-failing oracle. -/
theorem C6_oracle_failure_isolation_witness :
    20 ≤ ks20.length ∧ simUS.total_trades = 0 ∧
    simUS.total_profit_loss = 0 ∧
    ((run_simulation simUS ks20 (fun _ => .failure)
        (fun _ => .running)).1.status = .completed ∧
      (run_simulation simUS ks20 (fun _ => .failure)
        (fun _ => .running)).1.total_trades = 0 ∧
      (run_simulation simUS ks20 (fun _ => .failure)
        (fun _ => .running)).1.total_profit_loss = 0 ∧
      (run_simulation simUS ks20 (fun _ => .failure)
        (fun _ => .running)).2 = []) :=
  ⟨by simp [ks20], rfl, rfl,
    C6_oracle_failure_isolation simUS ks20 (by simp [ks20]) rfl rfl⟩

/-! ### Log monotonicity lemmas -/

theorem mem_logs_addLog (s : Sim) (l : String) (m : LogMsg) (e : LogEntry)
    (h : e ∈ s.logs) : e ∈ (addLog s l m).logs := by
  simp only [addLog_logs, List.mem_append]
  exact Or.inl h

theorem logs_calculate_metrics (s : Sim) (ts : List Trade) :
    (calculate_metrics s ts).logs = s.logs := by
  cases ts <;> rfl

theorem mem_logs_execute_trade (s : Sim) (d : TradeDecision) (p : ℚ)
    (e : LogEntry) (h : e ∈ s.logs) :
    e ∈ (execute_trade s d p).1.logs := by
  obtain ⟨act, q, c⟩ := d
  by_cases h0 : q ≤ 0
  · unfold execute_trade
    rw [if_pos h0]
    exact h
  cases act with
  | buy =>
    by_cases hcl : buyClampedQty s q p ≤ 0
    · unfold execute_trade
      simp only [h0, if_false]
      rw [if_pos hcl]
      exact h
    · unfold execute_trade
      simp only [h0, if_false]
      rw [if_neg hcl]
      show e ∈ ((s.logs ++ _) ++ _)
      simp only [List.mem_append]
      exact Or.inl (Or.inl h)
  | sell =>
    by_cases hcl : sellClampedQty s q ≤ 0
    · unfold execute_trade
      simp only [h0, if_false]
      rw [if_pos hcl]
      exact h
    · unfold execute_trade
      simp only [h0, if_false]
      rw [if_neg hcl]
      show e ∈ (((s.logs ++ _) ++ _) ++ _)
      simp only [List.mem_append]
      exact Or.inl (Or.inl (Or.inl h))

theorem mem_logs_dayBody (oracle : ℕ → OracleOutcome) (k : Kline)
    (idx : ℕ) (s : Sim) (e : LogEntry) (h : e ∈ s.logs) :
    e ∈ (dayBody oracle k idx s).1.logs := by
  unfold dayBody
  cases hd : makeTradingDecision (oracle idx) with
  | none =>
    simp only [hd]
    exact mem_logs_addLog _ _ _ _ (mem_logs_addLog _ _ _ _
      (mem_logs_addLog _ _ _ _ (mem_logs_addLog _ _ _ _
        (mem_logs_addLog _ _ _ _ (mem_logs_addLog _ _ _ _ h)))))
  | some d =>
    simp only [hd]
    exact mem_logs_addLog _ _ _ _ (mem_logs_execute_trade _ _ _ _
      (mem_logs_addLog _ _ _ _ (mem_logs_addLog _ _ _ _
        (mem_logs_addLog _ _ _ _ (mem_logs_addLog _ _ _ _
          (mem_logs_addLog _ _ _ _ (mem_logs_addLog _ _ _ _ h)))))))

theorem mem_logs_runLoop (oracle : ℕ → OracleOutcome) (obs : ℕ → Status)
    (ks : List Kline) (idx : ℕ) (s : Sim) (ts : List Trade) (e : LogEntry)
    (h : e ∈ s.logs) : e ∈ (runLoop oracle obs ks idx s ts).1.logs := by
  induction ks generalizing idx s ts with
  | nil => exact h
  | cons k rest ih =>
    rw [runLoop]
    dsimp only
    split_ifs with h1 h2
    · exact mem_logs_addLog _ _ _ _ h
    · exact mem_logs_addLog _ _ _ _ h
    · exact ih (idx + 1) _ _ (mem_logs_dayBody _ _ _ _ _ h)

theorem mem_logs_finishRun (s : Sim) (ts : List Trade) (e : LogEntry)
    (h : e ∈ s.logs) : e ∈ (finishRun s ts).1.logs := by
  unfold finishRun
  refine mem_logs_addLog _ _ _ _ (mem_logs_addLog _ _ _ _
    (mem_logs_addLog _ _ _ _ (mem_logs_addLog _ _ _ _ ?_)))
  rw [logs_calculate_metrics]
  exact mem_logs_addLog _ _ _ _ h

theorem fallback_mem_preLoopSim (s : Sim) (klines : List Kline)
    (h : (selectSimKlines klines).2 = true) :
    (⟨"info", .fallbackRecent (selectSimKlines klines).1.length⟩ : LogEntry) ∈
      (preLoopSim s klines).logs := by
  simp [preLoopSim, h, addLog_logs, List.mem_append]

/-! ### C8 -/

/-- C8: an attempt over fewer than 20 fetched points fails with the
insufficient-data message and records no trade; when at least 20 points
are fetched but fewer than 10 fall inside `[start_date, end_date]`, the
selection the loop runs over is instead the most recent at-most-60
fetched points (`klines[-60:]`), and a fallback entry recording this is
present in the final execution log. -/
theorem C8_data_requirements (s : Sim) (klines : List Kline)
    (oracle : ℕ → OracleOutcome) (obs : ℕ → Status) :
    (klines.length < 20 →
      (run_simulation s klines oracle obs).1.status = .failed ∧
      (run_simulation s klines oracle obs).1.error_message =
        some insufficientDataMsg ∧
      (run_simulation s klines oracle obs).2 = []) ∧
    (20 ≤ klines.length →
      (klines.filter (fun k => k.inWindow)).length < 10 →
      selectSimKlines klines = (klines.drop (klines.length - 60), true) ∧
      (selectSimKlines klines).1.length = min 60 klines.length ∧
      (⟨"info", .fallbackRecent (selectSimKlines klines).1.length⟩ : LogEntry) ∈
        (run_simulation s klines oracle obs).1.logs) := by
  constructor
  · intro h
    have hrun : run_simulation s klines oracle obs =
        insufficientResult (startRunSim s) := by
      simp only [run_simulation]
      rw [if_pos h]
    rw [hrun]
    exact ⟨rfl, rfl, rfl⟩
  · intro h20 hfil
    have hnl : ¬ (klines.length < 20) := by omega
    have hsel : selectSimKlines klines =
        (klines.drop (klines.length - 60), true) := by
      simp only [selectSimKlines]
      rw [if_pos hfil]
    refine ⟨hsel, ?_, ?_⟩
    · rw [hsel]
      simp only [List.length_drop]
      omega
    · have hrun : run_simulation s klines oracle obs =
          finishRun (runLoop oracle obs (selectSimKlines klines).1 0
            (preLoopSim s klines) []).1
            (runLoop oracle obs (selectSimKlines klines).1 0
              (preLoopSim s klines) []).2 := by
        simp only [run_simulation]
        rw [if_neg hnl]
      rw [hrun]
      exact mem_logs_finishRun _ _ _
        (mem_logs_runLoop _ _ _ _ _ _ _
          (fallback_mem_preLoopSim s klines (by rw [hsel])))

/-- Witness for C8: a 4-point history fails the run; a 25-point history
entirely outside the window triggers the fallback. -/
theorem C8_data_requirements_witness :
    ksShort.length < 20 ∧
    ((run_simulation simUS ksShort (fun _ => .failure)
        (fun _ => .running)).1.status = .failed ∧
      (run_simulation simUS ksShort (fun _ => .failure)
        (fun _ => .running)).1.error_message = some insufficientDataMsg ∧
      (run_simulation simUS ksShort (fun _ => .failure)
        (fun _ => .running)).2 = []) ∧
    20 ≤ ksOutside.length ∧
    (ksOutside.filter (fun k => k.inWindow)).length < 10 ∧
    (selectSimKlines ksOutside =
        (ksOutside.drop (ksOutside.length - 60), true) ∧
      (selectSimKlines ksOutside).1.length = min 60 ksOutside.length ∧
      (⟨"info", .fallbackRecent (selectSimKlines ksOutside).1.length⟩ :
          LogEntry) ∈
        (run_simulation simUS ksOutside (fun _ => .failure)
          (fun _ => .running)).1.logs) :=
  ⟨by simp [ksShort],
    (C8_data_requirements simUS ksShort (fun _ => .failure) (fun _ => .running)).1
      (by simp [ksShort]),
    by simp [ksOutside],
    by simp [ksOutside],
    (C8_data_requirements simUS ksOutside (fun _ => .failure) (fun _ => .running)).2
      (by simp [ksOutside]) (by simp [ksOutside])⟩

/-! ### C7 -/

/-- C7, counterexample: the claim says a successful start atomically
transitions the simulation to `running` (a single conditional update)
and dispatches the task.  The endpoint actually dispatches the task
while writing nothing: after a successful start on a `pending`
simulation the stored record is unchanged and still `pending`, not
`running` (the worker sets `running` later, unconditionally, inside
`run_simulation`).  Hence a second start issued before the worker runs
observes `pending` again and dispatches a second task. -/
theorem C7_counterexample :
    start_endpoint simUS = Except.ok (simUS, true) ∧
    simUS.status = Status.pending ∧
    simUS.status ≠ Status.running := by
  refine ⟨by simp [start_endpoint, simUS], by simp [simUS], by simp [simUS]⟩

/-- C7, amended: `start` succeeds only from `pending` and each
successful call dispatches exactly one task, but the endpoint performs
no status update (the `pending → running` transition happens later,
unconditionally, in the worker's `run_simulation`); consequently a
duplicate start while the record still reads `pending` dispatches a
second task, and the only duplicate protection is the worker's own
check, which skips execution when the status it observes is no longer
`pending`. -/
theorem C7_start_amended (s : Sim) (klines : List Kline)
    (oracle : ℕ → OracleOutcome) (obs : ℕ → Status) :
    (s.status ≠ .pending → start_endpoint s = .error startRejectMsg) ∧
    (s.status = .pending → start_endpoint s = .ok (s, true)) ∧
    (s.status ≠ .pending → run_trading_task s klines oracle obs = (s, [])) ∧
    (s.status = .pending →
      run_trading_task s klines oracle obs = run_simulation s klines oracle obs) := by
  refine ⟨fun h => ?_, fun h => ?_, fun h => ?_, fun h => ?_⟩ <;>
    simp [start_endpoint, run_trading_task, h]

/-- Witness for C7's amended theorem: at a `pending` simulation the
start succeeds and dispatches; at a `running` one it is rejected and the
worker gate refuses to run the engine. -/
theorem C7_start_amended_witness :
    start_endpoint simUS = Except.ok (simUS, true) ∧
    start_endpoint simRunning = Except.error startRejectMsg ∧
    run_trading_task simRunning ks20 (fun _ => .failure)
      (fun _ => .running) = (simRunning, []) := by
  refine ⟨(C7_start_amended simUS ks20 (fun _ => .failure)
      (fun _ => .running)).2.1 (by simp [simUS]),
    (C7_start_amended simRunning ks20 (fun _ => .failure)
      (fun _ => .running)).1 (by simp [simRunning, simUS]),
    (C7_start_amended simRunning ks20 (fun _ => .failure)
      (fun _ => .running)).2.2.1 (by simp [simRunning, simUS])⟩

/-! ### C9 -/

/-- C9: lifecycle legality.  `start` succeeds exactly from `pending`
(dispatching one task, record unchanged); `pause` exactly from
`running`, setting `paused`; `resume` exactly from `paused`, setting
`pending` and dispatching a new task; `stop` exactly from `pending`,
`running` or `paused`, setting `stopped` with the fixed manual-stop
summary; every other command is rejected with an error and no state is
returned (the endpoints raise before mutating, so the record is
unchanged). -/
theorem C9_lifecycle_legality (s : Sim) :
    (s.status = .pending → start_endpoint s = .ok (s, true)) ∧
    (s.status ≠ .pending → start_endpoint s = .error startRejectMsg) ∧
    (s.status = .running →
      pause_endpoint s = .ok { s with status := .paused }) ∧
    (s.status ≠ .running → pause_endpoint s = .error pauseRejectMsg) ∧
    (s.status = .paused →
      resume_endpoint s = .ok ({ s with status := .pending }, true)) ∧
    (s.status ≠ .paused → resume_endpoint s = .error resumeRejectMsg) ∧
    ((s.status = .pending ∨ s.status = .running ∨ s.status = .paused) →
      stop_endpoint s =
        .ok { s with status := .stopped, summary := some .manualStop }) ∧
    (¬(s.status = .pending ∨ s.status = .running ∨ s.status = .paused) →
      stop_endpoint s = .error stopRejectMsg) := by
  refine ⟨fun h => ?_, fun h => ?_, fun h => ?_, fun h => ?_,
    fun h => ?_, fun h => ?_, fun h => ?_, fun h => ?_⟩ <;>
    simp [start_endpoint, pause_endpoint, resume_endpoint, stop_endpoint, h]

/-- Witness for C9 at concrete states: a `pending` simulation can be
started and stopped but not paused or resumed; a `running` one can be
paused. -/
theorem C9_lifecycle_legality_witness :
    start_endpoint simUS = Except.ok (simUS, true) ∧
    pause_endpoint simUS = Except.error pauseRejectMsg ∧
    resume_endpoint simUS = Except.error resumeRejectMsg ∧
    stop_endpoint simUS =
      Except.ok { simUS with status := .stopped, summary := some .manualStop } ∧
    pause_endpoint simRunning =
      Except.ok { simRunning with status := .paused } := by
  refine ⟨(C9_lifecycle_legality simUS).1 (by simp [simUS]),
    (C9_lifecycle_legality simUS).2.2.2.1 (by simp [simUS]),
    (C9_lifecycle_legality simUS).2.2.2.2.2.1 (by simp [simUS]),
    (C9_lifecycle_legality simUS).2.2.2.2.2.2.1 (Or.inl (by simp [simUS])),
    (C9_lifecycle_legality simRunning).2.2.1 (by simp [simRunning, simUS])⟩

end FinanceRag
